import Mathlib

/-!
Shallow embedding of the Bomb-Catcher game core (LaCreArthur/Bomb-Catcher).

The repository holds several near-duplicate iterations of the same game.
Two complete iterations live in src/src/index.ts (an early `Game`/`Bomb`
pair, and a later one with `config`, `ScoreManager`, `UIManager`); the
final iteration's `Bomb`, `UIManager`, `config` and `ParticleEmitter`
modules are in src/unnamed, while its main game-controller file is not in
the repository snapshot.

Numbers that are IEEE doubles in the source are modelled as rationals
(`ℚ`); all the constants involved are exact decimals. Mutable objects are
modelled by explicit state records, and the event-driven control flow
(pointer clicks, ticker, animation-completion callbacks) by a step
function over an event type.
-/

namespace BombCatcher

/-! ### Configuration constants shared by the iterations -/

/-- config.canvasWidth / config.canvas.width (= 800 in every iteration). -/
def canvasWidth : ℚ := 800

/-- config.canvasHeight / config.canvas.height (= 600). -/
def canvasHeight : ℚ := 600

/-- config.floorHeight / config.canvas.floorHeight (= 50). -/
def floorHeight : ℚ := 50

/-- floorY as computed in the final iteration's Bomb: canvasHeight - floorHeight. -/
def floorY : ℚ := canvasHeight - floorHeight

/-- config.bombRotationSpeed (= 0.01). -/
def bombRotationSpeed : ℚ := 1/100

/-- config.game.initialLives (= 9). -/
def initialLives : ℤ := 9

/-- config.game.initialSpawnRate of the later index.ts iteration (= 0.8). -/
def initialSpawnRate : ℚ := 4/5

/-- config.game.initialSpeed of the later index.ts iteration (= 1.5). -/
def initialSpeed : ℚ := 3/2

/-- config.difficulty.spawnRateIncrease (= 0.005). -/
def spawnRateIncrease : ℚ := 1/200

/-- config.difficulty.speedIncrease (= 0.01). -/
def speedIncrease : ℚ := 1/100

/-- config.difficulty.maxSpawnRate (= 5). -/
def maxSpawnRate : ℚ := 5

/-- config.difficulty.maxSpeed (= 10). -/
def maxSpeed : ℚ := 10

/-- config.leaderboard.maxEntries (= 5). -/
def maxEntries : ℕ := 5

/-! ### Entity (Bomb) of the final iteration (src/unnamed/part_001, class Bomb)

Fields kept: position, velocity, rotation, the `hasExploded` flag, and the
`eventMode` input switch (`'static'` = interactive, `'none'` = input
disabled).  Textures, loop flag and animation speed are presentation-only
and are not part of the observable state the claims are about. -/

structure Bomb3 where
  x : ℚ
  y : ℚ
  vx : ℚ
  vy : ℚ
  rotation : ℚ
  hasExploded : Bool
  /-- eventMode: true = 'static' (receives pointer events), false = 'none'. -/
  interactive : Bool
deriving Repr, DecidableEq

/-- Spec-level lifecycle state of an entity (spec section 3).  The code has
no explicit enum; the mapping from the code's fields is:
Falling = not exploded and input enabled; Caught = not exploded after
handleClick disabled input; Exploding = hasExploded. -/
inductive EntityState
  | Falling
  | Caught
  | Exploding
deriving Repr, DecidableEq

def Bomb3.state (b : Bomb3) : EntityState :=
  if b.hasExploded then .Exploding
  else if b.interactive then .Falling
  else .Caught

/-- Bomb.update of the final iteration: early-return when `hasExploded`;
otherwise integrate position and rotation by `deltaTime`, then wall bounce
(clamp x to 0 or canvasWidth and negate vx), then floor check
(`y >= floorY` fires `onHitFloor`).  Returns the updated bomb and whether
the floor-hit callback was signalled; the bomb's own fields are not
changed by the floor signal (the controller reacts through `explode`). -/
def Bomb3.update (b : Bomb3) (dt : ℚ) : Bomb3 × Bool :=
  if b.hasExploded then (b, false)
  else
    let x1 := b.x + b.vx * dt
    let y1 := b.y + b.vy * dt
    let rot1 := b.rotation + bombRotationSpeed * dt
    let wall : ℚ × ℚ :=
      if x1 < 0 then (0, -b.vx)
      else if x1 > canvasWidth then (canvasWidth, -b.vx)
      else (x1, b.vx)
    ({ b with x := wall.1, vx := wall.2, y := y1, rotation := rot1 },
      decide (y1 ≥ floorY))

/-- Bomb.handleClick of the final iteration: if not exploded, signal the
catch callback and set eventMode to 'none'.  Returns the updated bomb and
whether `onCatch` was signalled. -/
def Bomb3.handleClick (b : Bomb3) : Bomb3 × Bool :=
  if b.hasExploded then (b, false)
  else ({ b with interactive := false }, true)

/-- Delivery of a pointerdown to a bomb: Pixi dispatches pointer events to
a display object only while its eventMode is 'static', so a click reaches
`handleClick` only when `interactive` is set. -/
def Bomb3.click (b : Bomb3) : Bomb3 × Bool :=
  if b.interactive then b.handleClick else (b, false)

/-- Bomb.explode of the final iteration: idempotent flag set (texture and
animation changes are presentation-only). -/
def Bomb3.explode (b : Bomb3) : Bomb3 :=
  if b.hasExploded then b else { b with hasExploded := true }

/-! ### Round controller composed with the final iteration's Bomb (model B)

The final iteration's main game file is absent from the repository
snapshot: src/unnamed holds its Bomb, UIManager, config and
ParticleEmitter modules, but not the class that wires the three Bomb
callbacks (`onCatch`, `onHitFloor`, `onExplosionComplete`) to score,
lives and difficulty. -/

/-- Per-bomb controller bookkeeping: the bomb itself plus whether a
floor-hit was signalled and its life decrement is still pending on the
explosion-completion callback. -/
structure BombB where
  core : Bomb3
  pendingLife : Bool
deriving Repr, DecidableEq

/-- Modelled from the spec: the round controller of the final iteration
(its main game file is not under src/).  Per spec sections 4.4 and 6,
`onCatch` increments the score and recomputes the difficulty, `onHitFloor`
costs one life (floor-clamped at 0), and removal from the live set happens
at the entity's terminal (explosion-completion) event; the life decrement
is processed at that completion callback, as the in-src
`Game.handleBomb` of index.ts does. -/
structure GameB where
  bombs : List BombB
  score : ℤ
  lives : ℤ
  spawnRate : ℚ
  speed : ℚ
  playing : Bool
deriving Repr, DecidableEq

/-- Game.increaseDifficulty of the later index.ts iteration (and the
identical constants of the final iteration's config): add the increment
and clamp with Math.min at the configured maximum. -/
def incDifficulty (sr sp : ℚ) : ℚ × ℚ :=
  (min maxSpawnRate (sr + spawnRateIncrease), min maxSpeed (sp + speedIncrease))

/-- External events driving the composed machine of the final iteration. -/
inductive EventB
  | tick (dt : ℚ)
  | click (i : ℕ)
  | explosionComplete (i : ℕ)

/-- Pointer click resolved to bomb `i`: deliver it through the bomb's own
eventMode gate and `handleClick` guard; on a signalled catch the
controller applies the spec's `onCatch` bookkeeping. -/
def GameB.clickStep (s : GameB) (i : ℕ) : GameB :=
  match s.bombs[i]? with
  | none => s
  | some bb =>
    let r := bb.core.click
    let s1 := { s with bombs := s.bombs.set i { bb with core := r.1 } }
    if r.2 then
      { s1 with
        score := s1.score + 1
        spawnRate := (incDifficulty s1.spawnRate s1.speed).1
        speed := (incDifficulty s1.spawnRate s1.speed).2 }
    else s1

/-- Ticker frame: advance every live bomb through the final iteration's
Bomb.update; a signalled floor-hit makes the controller explode that bomb
and record the pending life decrement. -/
def GameB.tickStep (s : GameB) (dt : ℚ) : GameB :=
  if s.playing then
    { s with
      bombs := s.bombs.map fun bb =>
        let r := bb.core.update dt
        if r.2 then { core := r.1.explode, pendingLife := true }
        else { bb with core := r.1 } }
  else s

/-- Explosion animation of bomb `i` completed (`onExplosionComplete`):
remove it from the live set, apply the pending life decrement
(floor-clamped at 0), and enter GameOver when lives first reach 0. -/
def GameB.completeStep (s : GameB) (i : ℕ) : GameB :=
  match s.bombs[i]? with
  | none => s
  | some bb =>
    if bb.core.hasExploded && bb.pendingLife then
      let s1 := { s with
        bombs := s.bombs.eraseIdx i
        lives := max 0 (s.lives - 1) }
      if s1.lives ≤ 0 ∧ s1.playing then
        { s1 with playing := false,
                  bombs := s1.bombs.map fun bb2 => { bb2 with core := bb2.core.explode } }
      else s1
    else s

def GameB.step (s : GameB) : EventB → GameB
  | .tick dt => s.tickStep dt
  | .click i => s.clickStep i
  | .explosionComplete i => s.completeStep i

/-! ### The later index.ts iteration (model A)

Full operational model of the second `Game` class in src/src/index.ts
(the one built on `config`, `ScoreManager` and `UIManager`), together
with its own `Bomb` class.  `Game.handleBomb` assigns the bomb's
`onComplete` property to a closure that removes the bomb from the live
list and then runs the score or life callback; the Pixi `'complete'`
animation event later invokes it.  That pending closure is modelled as a
per-bomb `pending` tag. -/

/-- Which callback `Game.handleBomb` stored in the bomb's `onComplete`:
the catch callback of `Game.catchBomb` or the life-loss callback of
`Game.explodeBomb`. -/
inductive Pending
  | catchCb
  | explodeCb
deriving Repr, DecidableEq

/-- Bomb of the later index.ts iteration.  Its `update` has no
`hasExploded` early return; its pointerdown handler always calls
`game.catchBomb(this)`. -/
structure BombA where
  x : ℚ
  y : ℚ
  vx : ℚ
  vy : ℚ
  rotation : ℚ
  hasExploded : Bool
  pending : Option Pending
deriving Repr, DecidableEq

/-- Game state of the later index.ts iteration; `lives`/`score` live in
its ScoreManager, `store` is the localStorage leaderboard list.
`gameOverCount` and `recordCount` are ghost counters of how many times
`Game.endGame` ran and how many times `ScoreManager.registerScore` ran. -/
structure GameA where
  bombs : List BombA
  score : ℤ
  lives : ℤ
  spawnRate : ℚ
  speed : ℚ
  isPlaying : Bool
  store : List ℤ
  gameOverCount : ℕ
  recordCount : ℕ
deriving Repr, DecidableEq

/-- Bomb.update of the later index.ts iteration, inlined with the
`Game.explodeBomb` reaction it triggers on floor contact (the tick loop
only runs while `isPlaying`, so `explodeBomb`'s `!this.isPlaying` guard
is vacuous there): integrate position and rotation, set vx by the
abs-based wall rule without clamping x, and on `y > floorY` explode the
bomb and store the life-loss callback unless it had already exploded. -/
def updateA (dt : ℚ) (b : BombA) : BombA :=
  let x1 := b.x + b.vx * dt
  let y1 := b.y + b.vy * dt
  let rot1 := b.rotation + bombRotationSpeed * dt
  let vx2 :=
    if x1 < 0 then |b.vx|
    else if x1 > canvasWidth then -|b.vx|
    else b.vx
  let b1 : BombA := { b with x := x1, y := y1, rotation := rot1, vx := vx2 }
  if y1 > floorY then
    if b.hasExploded then b1
    else { b1 with hasExploded := true, pending := some .explodeCb }
  else b1

/-- JS `scores.sort((a, b) => b - a)`: sort descending. -/
def sortDesc (l : List ℤ) : List ℤ :=
  List.insertionSort (· ≥ ·) l

/-- ScoreManager.registerScore acting on the stored leaderboard list:
push the round score, sort descending, keep the first `maxEntries`. -/
def registerScoreList (store : List ℤ) (sc : ℤ) : List ℤ :=
  (sortDesc (store ++ [sc])).take maxEntries

/-- Game.endGame: stop playing, force every remaining live bomb into the
explosion state, and register the final score on the leaderboard (ghost
counters record the endGame and registerScore invocations). -/
def endGameA (s : GameA) : GameA :=
  { s with
    isPlaying := false
    bombs := s.bombs.map fun b =>
      if b.hasExploded then b else { b with hasExploded := true }
    store := registerScoreList s.store s.score
    gameOverCount := s.gameOverCount + 1
    recordCount := s.recordCount + 1 }

/-- Body of the callback `Game.catchBomb` passes to `handleBomb`:
`scoreManager.increaseScore()` then `increaseDifficulty()`. -/
def catchCbA (s : GameA) : GameA :=
  { s with
    score := s.score + 1
    spawnRate := (incDifficulty s.spawnRate s.speed).1
    speed := (incDifficulty s.spawnRate s.speed).2 }

/-- Body of the callback `Game.explodeBomb` passes to `handleBomb`:
`scoreManager.loseLife()` (Math.max(0, lives - 1)), then
`if (isGameOver() && isPlaying) endGame()`. -/
def explodeCbA (s : GameA) : GameA :=
  let s1 := { s with lives := max 0 (s.lives - 1) }
  if s1.lives ≤ 0 then
    if s1.isPlaying then endGameA s1 else s1
  else s1

/-- The Pixi `'complete'` event of bomb `i`: fires only once the
non-looping explosion animation (started by `explode()`) finishes, and
runs the stored `onComplete` closure if one was assigned — which removes
the bomb from the live list and then runs the stored callback. -/
def completeA (s : GameA) (i : ℕ) : GameA :=
  match s.bombs[i]? with
  | none => s
  | some b =>
    if b.hasExploded then
      match b.pending with
      | none => s
      | some k =>
        let s1 := { s with bombs := s.bombs.eraseIdx i }
        match k with
        | .catchCb => catchCbA s1
        | .explodeCb => explodeCbA s1
    else s

/-- Game.catchBomb: return unless playing; otherwise `handleBomb` calls
`bomb.explode()` (sets `hasExploded`) and overwrites `bomb.onComplete`
with the catch callback — with no check that the bomb is still falling. -/
def clickA (s : GameA) (i : ℕ) : GameA :=
  if s.isPlaying then
    match s.bombs[i]? with
    | none => s
    | some b =>
      { s with bombs := s.bombs.set i { b with hasExploded := true, pending := some .catchCb } }
  else s

/-- Game.update driven by the ticker: return unless playing; otherwise
update every live bomb. -/
def tickA (s : GameA) (dt : ℚ) : GameA :=
  if s.isPlaying then { s with bombs := s.bombs.map (updateA dt) } else s

/-- Game.spawnBomb (the Bernoulli draw and trig of the constructor left
as free parameters, an over-approximation of the spawn distribution):
return unless playing, otherwise append a fresh bomb at the top edge. -/
def spawnA (s : GameA) (x vx vy : ℚ) : GameA :=
  if s.isPlaying then
    { s with bombs := s.bombs ++ [{ x := x, y := 0, vx := vx, vy := vy,
                                    rotation := 0, hasExploded := false, pending := none }] }
  else s

/-- Game.resetState: ScoreManager.reset (9 lives, score 0) and the
initial difficulty constants. -/
def resetA (s : GameA) : GameA :=
  { s with lives := initialLives, score := 0,
           spawnRate := initialSpawnRate, speed := initialSpeed }

/-- Game.restartGame: clear the live bomb list, resetState, resume
playing. -/
def restartA (s : GameA) : GameA :=
  { resetA { s with bombs := [] } with isPlaying := true }

/-- The Replay button exists only on the game-over screen; clicking it
runs restartGame. -/
def replayA (s : GameA) : GameA :=
  if s.isPlaying then s else restartA s

/-- External events driving the later index.ts iteration. -/
inductive EventA
  | tick (dt : ℚ)
  | click (i : ℕ)
  | animComplete (i : ℕ)
  | spawn (x vx vy : ℚ)
  | replay

def stepA (s : GameA) : EventA → GameA
  | .tick dt => tickA s dt
  | .click i => clickA s i
  | .animComplete i => completeA s i
  | .spawn x vx vy => spawnA s x vx vy
  | .replay => replayA s

/-- State right after Game.startGame on a fresh page (empty localStorage). -/
def initA : GameA :=
  { bombs := [], score := 0, lives := initialLives,
    spawnRate := initialSpawnRate, speed := initialSpeed,
    isPlaying := true, store := [], gameOverCount := 0, recordCount := 0 }

/-- States of the later index.ts iteration reachable from a fresh round. -/
inductive ReachableA : GameA → Prop
  | init : ReachableA initA
  | step {s : GameA} (h : ReachableA s) (e : EventA) : ReachableA (stepA s e)

/-- Pure difficulty curve: the pair (spawnRate, speed) after `n`
successful catches, starting from the initial constants, each catch
applying Game.increaseDifficulty once. -/
def difficultyAfter (n : ℕ) : ℚ × ℚ :=
  (fun p => incDifficulty p.1 p.2)^[n] (initialSpawnRate, initialSpeed)

/-! ### Witness inputs and invariant definitions -/

/-- Caught bomb used as concrete counterexample input: position (100, 100),
velocity (0, 2), clicked (input disabled) but not exploded. -/
def caughtBombC5 : Bomb3 :=
  { x := 100, y := 100, vx := 0, vy := 2, rotation := 0,
    hasExploded := false, interactive := false }

/-- Exploding bomb used as concrete witness input. -/
def explodedBombC5 : Bomb3 :=
  { x := 100, y := 200, vx := 1, vy := 2, rotation := 0,
    hasExploded := true, interactive := true }

/-- Falling bomb about to cross the left wall: x = 1, vx = -5. -/
def leftWallBombC6 : Bomb3 :=
  { x := 1, y := 100, vx := -5, vy := 2, rotation := 0,
    hasExploded := false, interactive := true }

/-- Falling bomb used as concrete counterexample input for C7. -/
def fallingBombC7 : Bomb3 :=
  { x := 100, y := 100, vx := 1, vy := 2, rotation := 0,
    hasExploded := false, interactive := true }

/-- Exploding bomb (already past the floor line, life decrement pending)
for the C1 witness. -/
def bombExplodingW : BombB :=
  { core := { x := 100, y := 560, vx := 0, vy := 2, rotation := 0,
              hasExploded := true, interactive := true },
    pendingLife := true }

/-- Caught bomb (clicked earlier, input disabled) for the C1/C4 witnesses. -/
def bombCaughtW : BombB :=
  { core := { x := 50, y := 10, vx := 1, vy := 2, rotation := 0,
              hasExploded := false, interactive := false },
    pendingLife := false }

/-- Concrete composed state with one exploding and one caught bomb. -/
def gameBW : GameB :=
  { bombs := [bombExplodingW, bombCaughtW], score := 0, lives := 9,
    spawnRate := 2, speed := 2, playing := true }

/-- Invariant tying lives to the playing flag in the later index.ts
iteration: while playing at least one life remains, and after game over
exactly zero remain. -/
def livesOK (s : GameA) : Prop :=
  (s.isPlaying = true → 1 ≤ s.lives) ∧ (s.isPlaying = false → s.lives = 0)

/-- The exact condition under which one event makes the later index.ts
iteration run `Game.endGame` (enter GameOver): the completion of a
floor-hit explosion whose stored callback is the life-loss one, while
still playing with exactly one life left. -/
def goTrigger (s : GameA) : EventA → Bool
  | .animComplete i =>
    match s.bombs[i]? with
    | some b =>
      b.hasExploded && decide (b.pending = some Pending.explodeCb) &&
        s.isPlaying && decide (s.lives = 1)
    | none => false
  | _ => false

/-- Difficulty fields stay clamped below the configured maxima. -/
def diffOK (s : GameA) : Prop :=
  s.spawnRate ≤ maxSpawnRate ∧ s.speed ≤ maxSpeed

/-- The round-state fields: live bombs, score, lives, difficulty pair,
playing flag (the persisted leaderboard is external storage and survives
a restart by design). -/
def roundView (s : GameA) : List BombA × ℤ × ℤ × ℚ × ℚ × Bool :=
  (s.bombs, s.score, s.lives, s.spawnRate, s.speed, s.isPlaying)

/-- Ghost-counter equality: registerScore runs exactly as often as
endGame does. -/
def recordOK (s : GameA) : Prop := s.recordCount = s.gameOverCount

/-- Concrete state for the C10 witness: one bomb past the floor with its
life-loss callback pending. -/
def gameAW : GameA :=
  { bombs := [{ x := 100, y := 560, vx := 0, vy := 2, rotation := 0,
                hasExploded := true, pending := some Pending.explodeCb }],
    score := 3, lives := 5, spawnRate := 1, speed := 2, isPlaying := true,
    store := [], gameOverCount := 0, recordCount := 0 }

/-! ### Helper lemmas -/

theorem Bomb3.state_exploding_iff (b : Bomb3) :
    b.state = .Exploding ↔ b.hasExploded = true := by
  unfold Bomb3.state
  split
  · simp_all
  · split <;> simp_all

theorem Bomb3.state_caught_iff (b : Bomb3) :
    b.state = .Caught ↔ (b.hasExploded = false ∧ b.interactive = false) := by
  unfold Bomb3.state
  split
  · simp_all
  · split <;> simp_all

theorem Bomb3.state_falling_iff (b : Bomb3) :
    b.state = .Falling ↔ (b.hasExploded = false ∧ b.interactive = true) := by
  unfold Bomb3.state
  split
  · simp_all
  · split <;> simp_all

/-! ### Claim C5: physics and input after leaving Falling -/

/-- C5 counterexample: an entity in `Caught` state is still integrated by
Bomb.update — one tick of deltaTime 1 moves it from y = 100 to y = 102,
refuting 'once an entity is in Caught or Exploding, advance(deltaTime)
performs no further physics integration'. -/
theorem caught_bomb_still_integrates :
    caughtBombC5.state = .Caught ∧
      (caughtBombC5.update 1).1.y = 102 ∧ caughtBombC5.y = 100 := by
  refine ⟨by decide, ?_, rfl⟩
  norm_num [Bomb3.update, caughtBombC5, canvasWidth, floorY, canvasHeight,
    floorHeight, bombRotationSpeed]

/-- C5 amended: an entity in `Exploding` state is fully inert — update is
the identity and signals nothing, clicks produce no catch, explode is a
no-op — and an entity in `Caught` state accepts no further input (its
eventMode is 'none', so a click changes nothing); but a Caught entity is
still physics-integrated (see the counterexample). -/
theorem exploding_inert_caught_ignores_input :
    (∀ (b : Bomb3) (dt : ℚ), b.state = .Exploding →
        b.update dt = (b, false) ∧ b.click = (b, false) ∧ b.explode = b) ∧
    (∀ b : Bomb3, b.state = .Caught → b.click = (b, false)) := by
  constructor
  · intro b dt h
    rw [Bomb3.state_exploding_iff] at h
    refine ⟨?_, ?_, ?_⟩
    · simp [Bomb3.update, h]
    · simp [Bomb3.click, Bomb3.handleClick, h]
    · simp [Bomb3.explode, h]
  · intro b h
    rw [Bomb3.state_caught_iff] at h
    simp [Bomb3.click, h.2]

theorem exploding_inert_caught_ignores_input_witness :
    explodedBombC5.update 1 = (explodedBombC5, false) ∧
      caughtBombC5.click = (caughtBombC5, false) :=
  ⟨(exploding_inert_caught_ignores_input.1 explodedBombC5 1 (by decide)).1,
    exploding_inert_caught_ignores_input.2 caughtBombC5 (by decide)⟩

/-! ### Claim C6: wall reflection -/

/-- C6: during an update of a not-yet-exploded bomb, if the integrated x
leaves the playable range, x is clamped to the boundary it crossed
(0 on the left, canvasWidth on the right), vx is negated so its absolute
value is preserved, and every other field receives exactly its normal
integration value (y and rotation advance, vy and the flags are
untouched). -/
theorem wall_reflection_clamps_and_negates (b : Bomb3) (dt : ℚ)
    (h : b.hasExploded = false) :
    (b.x + b.vx * dt < 0 →
        (b.update dt).1 = { b with x := 0, vx := -b.vx,
                                   y := b.y + b.vy * dt,
                                   rotation := b.rotation + bombRotationSpeed * dt } ∧
        |(b.update dt).1.vx| = |b.vx|) ∧
    (b.x + b.vx * dt > canvasWidth →
        (b.update dt).1 = { b with x := canvasWidth, vx := -b.vx,
                                   y := b.y + b.vy * dt,
                                   rotation := b.rotation + bombRotationSpeed * dt } ∧
        |(b.update dt).1.vx| = |b.vx|) := by
  constructor
  · intro hx
    have : ¬ b.x + b.vx * dt > canvasWidth := by
      simp only [canvasWidth]; linarith
    simp [Bomb3.update, h, hx, abs_neg]
  · intro hx
    have hx0 : ¬ b.x + b.vx * dt < 0 := by
      simp only [canvasWidth] at hx; linarith
    simp [Bomb3.update, h, hx, hx0, abs_neg]

theorem wall_reflection_clamps_and_negates_witness :
    (leftWallBombC6.update 1).1 =
        { leftWallBombC6 with x := 0, vx := 5, y := 102, rotation := 1/100 } ∧
      |(leftWallBombC6.update 1).1.vx| = |leftWallBombC6.vx| := by
  have h := (wall_reflection_clamps_and_negates leftWallBombC6 1 rfl).1
    (by norm_num [leftWallBombC6])
  constructor
  · rw [h.1]; norm_num [leftWallBombC6, bombRotationSpeed]
  · exact h.2

/-! ### Claim C7: negative deltaTime -/

/-- C7 counterexample: Bomb.update has no deltaTime guard — advancing a
Falling entity by deltaTime = -1 moves it from y = 100 up to y = 98,
refuting 'advance with a negative deltaTime produces zero displacement:
position, rotation, and velocity are unchanged'. -/
theorem negative_dt_moves_bomb_backwards :
    fallingBombC7.state = .Falling ∧ (-1 : ℚ) < 0 ∧
      (fallingBombC7.update (-1)).1.y = 98 ∧ fallingBombC7.y = 100 := by
  refine ⟨by decide, by norm_num, ?_, rfl⟩
  norm_num [Bomb3.update, fallingBombC7, canvasWidth, floorY, canvasHeight,
    floorHeight, bombRotationSpeed]

/-- C7 amended: Bomb.update applies the same affine integration whatever
deltaTime it receives; for a not-yet-exploded entity y always becomes
y + vy * deltaTime and rotation advances by bombRotationSpeed * deltaTime,
so a negative deltaTime with downward velocity moves the entity strictly
upwards instead of producing zero displacement. -/
theorem advance_integrates_any_dt (b : Bomb3) (dt : ℚ)
    (h : b.hasExploded = false) :
    (b.update dt).1.y = b.y + b.vy * dt ∧
    (b.update dt).1.rotation = b.rotation + bombRotationSpeed * dt ∧
    (dt < 0 → 0 < b.vy → (b.update dt).1.y < b.y) := by
  have hy : (b.update dt).1.y = b.y + b.vy * dt := by
    simp only [Bomb3.update, h]
    split <;> simp_all
  have hrot : (b.update dt).1.rotation = b.rotation + bombRotationSpeed * dt := by
    simp only [Bomb3.update, h]
    split <;> simp_all
  refine ⟨hy, hrot, fun hdt hvy => ?_⟩
  rw [hy]
  have : b.vy * dt < 0 := mul_neg_of_pos_of_neg hvy hdt
  linarith

theorem advance_integrates_any_dt_witness :
    (fallingBombC7.update (-1)).1.y = fallingBombC7.y + fallingBombC7.vy * (-1) ∧
      (fallingBombC7.update (-1)).1.y < fallingBombC7.y := by
  have h := advance_integrates_any_dt fallingBombC7 (-1) rfl
  exact ⟨h.1, h.2.2 (by norm_num) (by norm_num [fallingBombC7])⟩

/-! ### Claims C1 and C4: click forwarding in the final iteration -/

theorem list_set_get_self {α : Type _} :
    ∀ (l : List α) (i : ℕ) (a : α), l[i]? = some a → l.set i a = l
  | [], i, a, h => by simp at h
  | x :: xs, 0, a, h => by simp_all
  | x :: xs, i + 1, a, h => by
    simp only [List.getElem?_cons_succ] at h
    simp [list_set_get_self xs i a h]

/-- A delivered click signals `onCatch` exactly when the bomb is in the
Falling state (eventMode still 'static' and not exploded). -/
theorem Bomb3.click_catches_iff (b : Bomb3) :
    b.click.2 = true ↔ b.state = .Falling := by
  cases hE : b.hasExploded <;> cases hI : b.interactive <;>
    simp [Bomb3.click, Bomb3.handleClick, Bomb3.state, hE, hI]

/-- A click that signals no catch leaves the bomb unchanged. -/
theorem Bomb3.click_noop_of_not_catch (b : Bomb3) (h : b.click.2 = false) :
    b.click.1 = b := by
  cases hE : b.hasExploded <;> cases hI : b.interactive <;>
    simp_all [Bomb3.click, Bomb3.handleClick]

/-- C1: in the composed final-iteration machine, a pointer click on bomb
`i` feeds the catch path (score increment and onCatch bookkeeping) only
when that bomb is still in the Falling state; and a click on a bomb that
already signalled a floor-hit (Exploding, explosion animation pending) is
a complete no-op — no score change and the pending life decrement of that
or any other bomb is neither cancelled nor replaced. -/
theorem click_catch_only_when_falling (s : GameB) (i : ℕ) (bb : BombB)
    (h : s.bombs[i]? = some bb) :
    (bb.core.state ≠ .Falling → (s.step (.click i)).score = s.score) ∧
    (bb.core.state = .Exploding → s.step (.click i) = s) := by
  constructor
  · intro hnf
    have hr2 : bb.core.click.2 = false := by
      rw [Bool.eq_false_iff]
      intro hc
      exact hnf ((Bomb3.click_catches_iff bb.core).mp hc)
    simp [GameB.step, GameB.clickStep, h, hr2]
  · intro hexp
    have hr2 : bb.core.click.2 = false := by
      rw [Bool.eq_false_iff]
      intro hc
      rw [(Bomb3.click_catches_iff bb.core).mp hc] at hexp
      exact absurd hexp (by simp)
    have hr1 : bb.core.click.1 = bb.core := Bomb3.click_noop_of_not_catch bb.core hr2
    have hbb : ({ bb with core := bb.core.click.1 } : BombB) = bb := by
      rw [hr1]
    simp [GameB.step, GameB.clickStep, h, hr2, hbb, list_set_get_self s.bombs i bb h]

theorem click_catch_only_when_falling_witness :
    (gameBW.step (.click 1)).score = gameBW.score ∧
      gameBW.step (.click 0) = gameBW :=
  ⟨(click_catch_only_when_falling gameBW 1 bombCaughtW rfl).1 (by decide),
    (click_catch_only_when_falling gameBW 0 bombExplodingW rfl).2 (by decide)⟩

/-- C4: a duplicate click on an entity already in the Caught state
(eventMode 'none') is a complete no-op on the composed machine: the state
is unchanged, so there is no second score increment, no second difficulty
increase, and no second catch event. -/
theorem duplicate_click_on_caught_is_noop (s : GameB) (i : ℕ) (bb : BombB)
    (h : s.bombs[i]? = some bb) (hc : bb.core.state = .Caught) :
    s.step (.click i) = s := by
  have hr2 : bb.core.click.2 = false := by
    rw [Bool.eq_false_iff]
    intro h2
    rw [(Bomb3.click_catches_iff bb.core).mp h2] at hc
    exact absurd hc (by simp)
  have hr1 : bb.core.click.1 = bb.core := Bomb3.click_noop_of_not_catch bb.core hr2
  have hbb : ({ bb with core := bb.core.click.1 } : BombB) = bb := by
    rw [hr1]
  simp [GameB.step, GameB.clickStep, h, hr2, hbb, list_set_get_self s.bombs i bb h]

theorem duplicate_click_on_caught_is_noop_witness :
    gameBW.step (.click 1) = gameBW :=
  duplicate_click_on_caught_is_noop gameBW 1 bombCaughtW rfl (by decide)

/-! ### Claim C3: lives never negative, GameOver exactly once -/

theorem livesOK_init : livesOK initA := by
  simp [livesOK, initA, initialLives]

theorem livesOK_step (s : GameA) (hs : livesOK s) (e : EventA) :
    livesOK (stepA s e) := by
  obtain ⟨h1, h0⟩ := hs
  cases e with
  | tick dt =>
    simp only [stepA, tickA]
    split <;> exact ⟨h1, h0⟩
  | click i =>
    simp only [stepA, clickA]
    split
    · split <;> exact ⟨h1, h0⟩
    · exact ⟨h1, h0⟩
  | spawn x vx vy =>
    simp only [stepA, spawnA]
    split <;> exact ⟨h1, h0⟩
  | replay =>
    simp only [stepA, replayA]
    split
    · exact ⟨h1, h0⟩
    · refine ⟨fun _ => ?_, fun hf => ?_⟩
      · simp [restartA, resetA, initialLives]
      · simp [restartA] at hf
  | animComplete i =>
    cases hb : s.bombs[i]? with
    | none => simpa [stepA, completeA, hb] using ⟨h1, h0⟩
    | some b =>
      cases hE : b.hasExploded with
      | false => simpa [stepA, completeA, hb, hE] using ⟨h1, h0⟩
      | true =>
        cases hp : b.pending with
        | none => simpa [stepA, completeA, hb, hE, hp] using ⟨h1, h0⟩
        | some k =>
          cases k with
          | catchCb =>
            simpa [stepA, completeA, hb, hE, hp, catchCbA] using ⟨h1, h0⟩
          | explodeCb =>
            simp only [stepA, completeA, hb, hE, hp, explodeCbA, if_true]
            split
            case isTrue hle =>
              split
              case isTrue hpl =>
                unfold livesOK endGameA
                dsimp only
                exact ⟨fun hf => absurd hf (by simp), fun _ => by omega⟩
              case isFalse hnp =>
                unfold livesOK
                dsimp only
                have hfalse : s.isPlaying = false := by
                  cases hI : s.isPlaying
                  · rfl
                  · exact absurd hI hnp
                exact ⟨fun hc => absurd hc (by rw [hfalse]; simp), fun _ => by omega⟩
            case isFalse hgt =>
              unfold livesOK
              dsimp only
              exact ⟨fun _ => by omega, fun hf => by have := h0 hf; omega⟩
theorem reachable_livesOK (s : GameA) (hs : ReachableA s) : livesOK s := by
  induction hs with
  | init => exact livesOK_init
  | step h e ih => exact livesOK_step _ ih e

theorem gameOverCount_step (s : GameA) (hs : livesOK s) (e : EventA) :
    (stepA s e).gameOverCount =
      s.gameOverCount + (if goTrigger s e then 1 else 0) := by
  obtain ⟨h1, h0⟩ := hs
  cases e with
  | tick dt =>
    simp only [stepA, tickA, goTrigger]
    split <;> simp
  | click i =>
    simp only [stepA, clickA, goTrigger]
    split
    · cases hb : s.bombs[i]? <;> simp [hb]
    · simp
  | spawn x vx vy =>
    simp only [stepA, spawnA, goTrigger]
    split <;> simp
  | replay =>
    simp only [stepA, replayA, goTrigger]
    split <;> simp [restartA, resetA]
  | animComplete i =>
    cases hb : s.bombs[i]? with
    | none => simp [stepA, completeA, goTrigger, hb]
    | some b =>
      cases hE : b.hasExploded with
      | false => simp [stepA, completeA, goTrigger, hb, hE]
      | true =>
        cases hp : b.pending with
        | none => simp [stepA, completeA, goTrigger, hb, hE, hp]
        | some k =>
          cases k with
          | catchCb => simp [stepA, completeA, goTrigger, hb, hE, hp, catchCbA]
          | explodeCb =>
            simp only [stepA, completeA, goTrigger, hb, hE, hp, explodeCbA, if_true]
            split
            case isTrue hle =>
              split
              case isTrue hpl =>
                have hl1 : s.lives = 1 := by
                  have := h1 hpl
                  omega
                simp [endGameA, hpl, hl1]
              case isFalse hnp =>
                have hfalse : s.isPlaying = false := by
                  cases hI : s.isPlaying
                  · rfl
                  · exact absurd hI hnp
                simp [hfalse]
            case isFalse hgt =>
              have hne : ¬ s.lives = 1 := by omega
              simp [hne]

/-- C3: in every reachable state of the later index.ts iteration, lives
never go below 0 (ScoreManager.loseLife floor-clamps, so a floor-hit at 0
lives leaves 0), and a step increments the endGame counter exactly when
it is the explosion-completion of a floor-hit that takes lives from 1 to
0 while still playing — so GameOver fires exactly once per round, at that
event, and never again for later floor-hit completions. -/
theorem lives_nonneg_gameover_once (s : GameA) (hs : ReachableA s) :
    0 ≤ s.lives ∧ ∀ e : EventA,
      (stepA s e).gameOverCount =
        s.gameOverCount + (if goTrigger s e then 1 else 0) := by
  have h := reachable_livesOK s hs
  refine ⟨?_, gameOverCount_step s h⟩
  cases hI : s.isPlaying
  · have := h.2 hI
    omega
  · have := h.1 hI
    omega

theorem lives_nonneg_gameover_once_witness :
    0 ≤ initA.lives ∧
      (stepA initA (.tick 1)).gameOverCount =
        initA.gameOverCount + (if goTrigger initA (.tick 1) then 1 else 0) :=
  ⟨(lives_nonneg_gameover_once initA ReachableA.init).1,
    (lives_nonneg_gameover_once initA ReachableA.init).2 (.tick 1)⟩

/-! ### Claim C2: difficulty curve monotone and bounded -/

theorem min_add_min (M a e : ℚ) (he : 0 ≤ e) :
    min M (min M a + e) = min M (a + e) := by
  rcases le_total a M with h | h
  · rw [min_eq_right h]
  · rw [min_eq_left h, min_eq_left (by linarith), min_eq_left (by linarith)]

theorem difficultyAfter_closed (n : ℕ) :
    difficultyAfter n =
      (min maxSpawnRate (initialSpawnRate + n * spawnRateIncrease),
       min maxSpeed (initialSpeed + n * speedIncrease)) := by
  induction n with
  | zero =>
    simp only [difficultyAfter, Function.iterate_zero, id_eq, Nat.cast_zero, zero_mul,
      add_zero]
    rw [min_eq_right, min_eq_right]
    · norm_num [initialSpeed, maxSpeed]
    · norm_num [initialSpawnRate, maxSpawnRate]
  | succ n ih =>
    have hstep : difficultyAfter (n + 1) =
        incDifficulty (difficultyAfter n).1 (difficultyAfter n).2 := by
      unfold difficultyAfter
      rw [Function.iterate_succ_apply']
    rw [hstep, ih]
    unfold incDifficulty
    dsimp only
    rw [min_add_min _ _ _ (by norm_num [spawnRateIncrease]),
        min_add_min _ _ _ (by norm_num [speedIncrease])]
    have h1 : initialSpawnRate + ↑n * spawnRateIncrease + spawnRateIncrease =
        initialSpawnRate + ↑(n + 1) * spawnRateIncrease := by
      push_cast
      ring
    have h2 : initialSpeed + ↑n * speedIncrease + speedIncrease =
        initialSpeed + ↑(n + 1) * speedIncrease := by
      push_cast
      ring
    rw [h1, h2]

theorem diffOK_step (s : GameA) (hs : diffOK s) (e : EventA) :
    diffOK (stepA s e) := by
  obtain ⟨hr, hp⟩ := hs
  cases e with
  | tick dt =>
    simp only [stepA, tickA]
    split <;> exact ⟨hr, hp⟩
  | click i =>
    simp only [stepA, clickA]
    split
    · split <;> exact ⟨hr, hp⟩
    · exact ⟨hr, hp⟩
  | spawn x vx vy =>
    simp only [stepA, spawnA]
    split <;> exact ⟨hr, hp⟩
  | replay =>
    simp only [stepA, replayA]
    split
    · exact ⟨hr, hp⟩
    · constructor
      · simp [restartA, resetA, initialSpawnRate, maxSpawnRate]
        norm_num
      · simp [restartA, resetA, initialSpeed, maxSpeed]
        norm_num
  | animComplete i =>
    cases hb : s.bombs[i]? with
    | none => simpa [stepA, completeA, hb] using ⟨hr, hp⟩
    | some b =>
      cases hE : b.hasExploded with
      | false => simpa [stepA, completeA, hb, hE] using ⟨hr, hp⟩
      | true =>
        cases hq : b.pending with
        | none => simpa [stepA, completeA, hb, hE, hq] using ⟨hr, hp⟩
        | some k =>
          cases k with
          | catchCb =>
            simp only [stepA, completeA, hb, hE, hq, catchCbA, incDifficulty]
            exact ⟨min_le_left _ _, min_le_left _ _⟩
          | explodeCb =>
            have key : ∀ t : GameA, diffOK t → diffOK (explodeCbA t) := by
              intro t ht
              unfold explodeCbA endGameA diffOK at *
              dsimp only
              split
              · split
                · exact ht
                · exact ht
              · exact ht
            simp only [stepA, completeA, hb, hE, hq]
            exact key _ ⟨hr, hp⟩

theorem reachable_diffOK (s : GameA) (hs : ReachableA s) : diffOK s := by
  induction hs with
  | init =>
    constructor
    · norm_num [initA, initialSpawnRate, maxSpawnRate]
    · norm_num [initA, initialSpeed, maxSpeed]
  | step h e ih => exact diffOK_step _ ih e

/-- C2: after n catches the difficulty pair equals the initial constants
plus n increments, saturated at the configured maxima (the closed form of
iterating Game.increaseDifficulty); it is monotone non-decreasing in n,
never exceeds the maxima, and in every reachable state of the game the
current spawnRate and speed are within the maxima. -/
theorem difficulty_monotone_bounded :
    (∀ n : ℕ, difficultyAfter n =
        (min maxSpawnRate (initialSpawnRate + n * spawnRateIncrease),
         min maxSpeed (initialSpeed + n * speedIncrease))) ∧
    (∀ m n : ℕ, m ≤ n → (difficultyAfter m).1 ≤ (difficultyAfter n).1 ∧
        (difficultyAfter m).2 ≤ (difficultyAfter n).2) ∧
    (∀ n : ℕ, (difficultyAfter n).1 ≤ maxSpawnRate ∧
        (difficultyAfter n).2 ≤ maxSpeed) ∧
    (∀ s : GameA, ReachableA s → s.spawnRate ≤ maxSpawnRate ∧ s.speed ≤ maxSpeed) := by
  refine ⟨difficultyAfter_closed, fun m n hmn => ?_, fun n => ?_, reachable_diffOK⟩
  · rw [difficultyAfter_closed m, difficultyAfter_closed n]
    have hc : (m : ℚ) ≤ (n : ℚ) := by exact_mod_cast hmn
    constructor
    · exact min_le_min le_rfl (by nlinarith [show (0:ℚ) ≤ spawnRateIncrease by norm_num [spawnRateIncrease]])
    · exact min_le_min le_rfl (by nlinarith [show (0:ℚ) ≤ speedIncrease by norm_num [speedIncrease]])
  · rw [difficultyAfter_closed n]
    exact ⟨min_le_left _ _, min_le_left _ _⟩

theorem difficulty_monotone_bounded_witness :
    ((difficultyAfter 2).1 ≤ (difficultyAfter 5).1 ∧
        (difficultyAfter 2).2 ≤ (difficultyAfter 5).2) ∧
      (initA.spawnRate ≤ maxSpawnRate ∧ initA.speed ≤ maxSpeed) :=
  ⟨difficulty_monotone_bounded.2.1 2 5 (by norm_num),
    difficulty_monotone_bounded.2.2.2 initA ReachableA.init⟩

/-! ### Claim C8: restart resets the round state -/

/-- C8: Game.restartGame after any prior history resets score to 0, lives
to the initial constant 9, the difficulty to the initial constants, and
clears all live bombs; the resulting round state is the same whatever the
prior round's final values were. -/
theorem restart_resets_round_state (s t : GameA) :
    (restartA s).score = 0 ∧ (restartA s).lives = 9 ∧
    (restartA s).spawnRate = initialSpawnRate ∧
    (restartA s).speed = initialSpeed ∧
    (restartA s).bombs = [] ∧
    roundView (restartA s) = roundView (restartA t) := by
  refine ⟨rfl, rfl, rfl, rfl, rfl, ?_⟩
  simp [roundView, restartA, resetA]

/-! ### Claim C9: leaderboard registration -/

theorem sortDesc_sorted (l : List ℤ) : (sortDesc l).Sorted (· ≥ ·) :=
  List.sorted_insertionSort (· ≥ ·) l

/-- registerScore output is sorted descending and capped at maxEntries. -/
theorem registerScoreList_sorted_capped (store : List ℤ) (sc : ℤ) :
    (registerScoreList store sc).Sorted (· ≥ ·) ∧
      (registerScoreList store sc).length ≤ maxEntries := by
  constructor
  · exact List.Pairwise.sublist (List.take_sublist _ _) (sortDesc_sorted (store ++ [sc]))
  · simp only [registerScoreList, List.length_take]
    exact min_le_left _ _

theorem recordOK_step (s : GameA) (hs : recordOK s) (e : EventA) :
    recordOK (stepA s e) := by
  cases e with
  | tick dt =>
    simp only [stepA, tickA]
    split <;> exact hs
  | click i =>
    simp only [stepA, clickA]
    split
    · split <;> exact hs
    · exact hs
  | spawn x vx vy =>
    simp only [stepA, spawnA]
    split <;> exact hs
  | replay =>
    simp only [stepA, replayA]
    split
    · exact hs
    · simpa [recordOK, restartA, resetA] using hs
  | animComplete i =>
    cases hb : s.bombs[i]? with
    | none => simpa [stepA, completeA, hb] using hs
    | some b =>
      cases hE : b.hasExploded with
      | false => simpa [stepA, completeA, hb, hE] using hs
      | true =>
        cases hq : b.pending with
        | none => simpa [stepA, completeA, hb, hE, hq] using hs
        | some k =>
          cases k with
          | catchCb => simpa [stepA, completeA, hb, hE, hq, catchCbA, recordOK] using hs
          | explodeCb =>
            have key : ∀ t : GameA, recordOK t → recordOK (explodeCbA t) := by
              intro t ht
              unfold explodeCbA endGameA recordOK at *
              dsimp only
              split
              · split
                · simp [ht]
                · exact ht
              · exact ht
            simp only [stepA, completeA, hb, hE, hq]
            exact key _ hs

theorem reachable_recordOK (s : GameA) (hs : ReachableA s) : recordOK s := by
  induction hs with
  | init => rfl
  | step h e ih => exact recordOK_step _ ih e

/-- C9: ScoreManager.registerScore keeps the persisted leaderboard sorted
descending and capped at 5 entries; registering 10, 30, 20 into an empty
store reads back as [30, 20, 10], and after six scores only the top 5
remain; and in every reachable state registerScore has run exactly as
many times as the GameOver transition. -/
theorem leaderboard_sorted_capped_record_once :
    (∀ (store : List ℤ) (sc : ℤ),
        (registerScoreList store sc).Sorted (· ≥ ·) ∧
          (registerScoreList store sc).length ≤ maxEntries) ∧
    registerScoreList (registerScoreList (registerScoreList [] 10) 30) 20 =
      [30, 20, 10] ∧
    List.foldl registerScoreList [] [10, 30, 20, 40, 5, 25] =
      [40, 30, 25, 20, 10] ∧
    (∀ s : GameA, ReachableA s → s.recordCount = s.gameOverCount) := by
  exact ⟨registerScoreList_sorted_capped, by decide, by decide, reachable_recordOK⟩

theorem leaderboard_sorted_capped_record_once_witness :
    ((registerScoreList [10, 30, 20] 40).Sorted (· ≥ ·) ∧
        (registerScoreList [10, 30, 20] 40).length ≤ maxEntries) ∧
      initA.recordCount = initA.gameOverCount :=
  ⟨leaderboard_sorted_capped_record_once.1 [10, 30, 20] 40,
    leaderboard_sorted_capped_record_once.2.2.2 initA ReachableA.init⟩

/-! ### Claim C10: score and lives mutations are deferred to completion -/

/-- C10: in the later index.ts iteration, neither a catch click nor the
tick that detects floor contact (nor a spawn) changes score or lives;
the mutation happens only at the bomb's 'complete' animation event, in
the same step that removes the bomb from the live list: completing a
pending catch callback erases the bomb and adds one point, completing a
pending life-loss callback shrinks the live list by one and applies the
clamped life decrement. -/
theorem score_lives_mutations_deferred :
    (∀ (s : GameA) (i : ℕ),
        (stepA s (.click i)).score = s.score ∧ (stepA s (.click i)).lives = s.lives) ∧
    (∀ (s : GameA) (dt : ℚ),
        (stepA s (.tick dt)).score = s.score ∧ (stepA s (.tick dt)).lives = s.lives) ∧
    (∀ (s : GameA) (x vx vy : ℚ),
        (stepA s (.spawn x vx vy)).score = s.score ∧
          (stepA s (.spawn x vx vy)).lives = s.lives) ∧
    (∀ (s : GameA) (i : ℕ) (b : BombA), s.bombs[i]? = some b →
        b.hasExploded = true →
        (b.pending = some Pending.catchCb →
            (stepA s (.animComplete i)).bombs = s.bombs.eraseIdx i ∧
            (stepA s (.animComplete i)).score = s.score + 1 ∧
            (stepA s (.animComplete i)).lives = s.lives) ∧
        (b.pending = some Pending.explodeCb →
            (stepA s (.animComplete i)).bombs.length + 1 = s.bombs.length ∧
            (stepA s (.animComplete i)).score = s.score ∧
            (stepA s (.animComplete i)).lives = max 0 (s.lives - 1))) := by
  refine ⟨fun s i => ?_, fun s dt => ?_, fun s x vx vy => ?_, fun s i b hb hE => ?_⟩
  · simp only [stepA, clickA]
    split
    · cases hq : s.bombs[i]? <;> simp
    · exact ⟨rfl, rfl⟩
  · simp only [stepA, tickA]
    split <;> exact ⟨rfl, rfl⟩
  · simp only [stepA, spawnA]
    split <;> exact ⟨rfl, rfl⟩
  · have hlen : i < s.bombs.length := (List.getElem?_eq_some.mp hb).1
    constructor
    · intro hq
      simp [stepA, completeA, hb, hE, hq, catchCbA]
    · intro hq
      simp only [stepA, completeA, hb, hE, hq, explodeCbA, if_true]
      split
      · split
        · unfold endGameA
          refine ⟨?_, rfl, rfl⟩
          dsimp only
          rw [List.length_map]
          exact List.length_eraseIdx_add_one hlen
        · exact ⟨List.length_eraseIdx_add_one hlen, rfl, rfl⟩
      · exact ⟨List.length_eraseIdx_add_one hlen, rfl, rfl⟩

theorem score_lives_mutations_deferred_witness :
    ((stepA gameAW (.click 0)).score = gameAW.score ∧
        (stepA gameAW (.click 0)).lives = gameAW.lives) ∧
      ((stepA gameAW (.animComplete 0)).bombs.length + 1 = gameAW.bombs.length ∧
        (stepA gameAW (.animComplete 0)).score = gameAW.score ∧
        (stepA gameAW (.animComplete 0)).lives = max 0 (gameAW.lives - 1)) :=
  ⟨score_lives_mutations_deferred.1 gameAW 0,
    (score_lives_mutations_deferred.2.2.2 gameAW 0 _ rfl rfl).2 rfl⟩

end BombCatcher
